import Mathlib

namespace DebPkgTools

/-- POSIX errno value for "File exists", compared against by `makedirs`. -/
def EEXIST : Nat := 17

/-- POSIX errno value for "Permission denied" (used in concrete fault scenarios). -/
def EACCES : Nat := 13

/-- POSIX errno value for "Directory not empty" (surfaced by `os_rmdir`). -/
def ENOTEMPTY : Nat := 39

/-- POSIX errno value for "No such file or directory" (surfaced by `os_rmdir`). -/
def ENOENT : Nat := 2

/-- POSIX errno value for "Not a directory" (surfaced by `os_rmdir`). -/
def ENOTDIR : Nat := 20

/-- Kind of a filesystem entry: a directory or a non-directory (regular) file. -/
inductive Entry where
  | dir : Entry
  | file : Entry
deriving DecidableEq

/-- A model of the filesystem state seen by the lock: a finite map from
absolute path names to entry kinds (first match wins; construction keeps at
most one entry per path), together with an injection table `mkdirErrors`
assigning to some paths a non-`EEXIST` errno with which `os.makedirs` fails
there (modelling permission or I/O failures). -/
structure FS where
  entries : List (String × Entry)
  mkdirErrors : List (String × Nat)
deriving DecidableEq

/-- Kind of the entry at path `p`, if any. -/
def FS.kind (fs : FS) (p : String) : Option Entry :=
  (fs.entries.find? (fun e => e.1 == p)).map (fun e => e.2)

/-- Whether any entry (directory or file) exists at path `p`. -/
def FS.pathExists (fs : FS) (p : String) : Bool :=
  (fs.kind p).isSome

/-- Whether a directory exists at path `p` (model of `os.path.isdir`). -/
def FS.isdir (fs : FS) (p : String) : Bool :=
  fs.kind p == some Entry.dir

/-- Boolean prefix test on lists of characters. -/
def isPrefixList : List Char → List Char → Bool
  | [], _ => true
  | _ :: _, [] => false
  | a :: as, b :: bs => a == b && isPrefixList as bs

/-- Whether the filesystem holds an entry strictly below directory `d`
(some entry whose path has `d ++ "/"` as a prefix). -/
def FS.hasChildren (fs : FS) (d : String) : Bool :=
  fs.entries.any (fun e => isPrefixList (d ++ "/").data e.1.data)

/-- Interface model of `os.makedirs` (standard library): atomically create
directory `d`; fail with errno `EEXIST` when an entry already exists at `d`
(directory or file alike); a path listed in `mkdirErrors` fails with its
injected errno instead (permissions, I/O failure, ...). The lock marker
lives directly under the temporary directory, so creation of missing parent
directories never occurs in this component and is not modelled. -/
def os_makedirs (fs : FS) (d : String) : Except Nat FS :=
  match fs.mkdirErrors.lookup d with
  | some e => .error e
  | none =>
    if fs.pathExists d then .error EEXIST
    else .ok { fs with entries := (d, Entry.dir) :: fs.entries }

/-- Interface model of `os.rmdir` (standard library): remove directory `d`;
fail with `ENOTEMPTY` if it has children, `ENOTDIR` if a non-directory entry
is at `d`, `ENOENT` if nothing is there. -/
def os_rmdir (fs : FS) (d : String) : Except Nat FS :=
  if fs.isdir d then
    if fs.hasChildren d then .error ENOTEMPTY
    else .ok { fs with entries := fs.entries.eraseP (fun e => e.1 == d) }
  else if fs.pathExists d then .error ENOTDIR
  else .error ENOENT

/-- `deb_pkg_tools.utils.makedirs`: create a directory, returning `true` if
it was created and `false` if it already existed (`EEXIST` swallowed); any
other `OSError` errno is re-raised unchanged (the `Except.error` case). -/
def makedirs (fs : FS) (directory : String) : Except Nat (FS × Bool) :=
  match os_makedirs fs directory with
  | .ok fs' => .ok (fs', true)
  | .error e => if e = EEXIST then .ok (fs, false) else .error e

/-- Whether a string starts with the character `/` (the test
`posixpath.join` applies to its second argument). -/
def startsWithSlash (s : String) : Bool :=
  match s.data with
  | [] => false
  | c :: _ => c == '/'

/-- Whether a string ends with the character `/`. -/
def endsWithSlash (s : String) : Bool :=
  match s.data.getLast? with
  | some c => c == '/'
  | none => false

/-- Model of `os.path.join` (POSIX): an absolute second component replaces
the first; otherwise the components are joined, inserting `/` unless the
first component is empty or already ends in `/`. -/
def path_join (a b : String) : String :=
  if startsWithSlash b then b
  else if a = "" || endsWithSlash a then a ++ b
  else a ++ "/" ++ b

/-- External collaborators of the lock, fixed per process: `sha1` is the
fingerprint function (`deb_pkg_tools.utils.sha1`, a hex digest via
`hashlib`), `tmpdir` is `tempfile.gettempdir()`, and `realpath` is
`os.path.realpath` — a total function: the Python implementation
canonicalizes best-effort and never raises for unresolvable paths. -/
structure Env where
  sha1 : String → String
  tmpdir : String
  realpath : String → String

/-- `deb_pkg_tools.utils.atomic_lock`: the lock handle, holding the `wait`
flag, the canonicalized `pathname` and the derived `lock_directory`. -/
structure atomic_lock where
  wait : Bool
  pathname : String
  lock_directory : String
deriving DecidableEq

/-- Model of `atomic_lock.__init__`: store the wait flag, canonicalize the
pathname with `os.path.realpath`, and derive the marker path by joining the
temporary directory with the sha1 fingerprint of the canonical pathname
followed by the suffix `.lock`. -/
def atomic_lock.init (env : Env) (pathname : String) (wait : Bool) : atomic_lock :=
  let p := env.realpath pathname
  { wait := wait
    pathname := p
    lock_directory := path_join env.tmpdir (env.sha1 p ++ ".lock") }

/-- Outcome of `atomic_lock.__enter__` over a schedule of filesystem states
(one state per attempt, successive states reflecting mutations by other
processes between polls): `success` carries the filesystem after this
own call to `makedirs` created the marker and the list of sleep durations (in
seconds) performed before success; `locked` is the raised
`ResourceLockedException` with its message, the filesystem untouched;
`oserror` is a propagated `OSError` errno, the filesystem untouched;
`pending` means the schedule was exhausted while the loop was still
retrying (a fuel artifact of the model, not a program outcome). -/
inductive EnterResult where
  | success : FS → List ℚ → EnterResult
  | locked : FS → String → EnterResult
  | oserror : FS → Nat → EnterResult
  | pending : EnterResult
deriving DecidableEq

/-- `atomic_lock.__enter__`: loop: if `makedirs(self.lock_directory)`
returns true, return; elif `self.wait`, sleep 0.1 seconds and retry; else
raise `ResourceLockedException("Failed to lock %s for exclusive access!" %
self.pathname)`. A propagated `OSError` from `makedirs` aborts the loop.
The spinner progress output is cosmetic and not modelled. -/
def atomic_lock.enter (L : atomic_lock) : List FS → EnterResult
  | [] => .pending
  | fs :: rest =>
    match makedirs fs L.lock_directory with
    | .error e => .oserror fs e
    | .ok (fs', created) =>
      if created then .success fs' []
      else if L.wait then
        match atomic_lock.enter L rest with
        | .success fs2 sleeps => .success fs2 ((1 : ℚ)/10 :: sleeps)
        | r => r
      else .locked fs ("Failed to lock " ++ L.pathname ++ " for exclusive access!")

/-- `atomic_lock.__exit__`: if `os.path.isdir(self.lock_directory)`, remove
it with `os.rmdir`; otherwise do nothing. -/
def atomic_lock.exit (L : atomic_lock) (fs : FS) : Except Nat FS :=
  if fs.isdir L.lock_directory then os_rmdir fs L.lock_directory
  else .ok fs

/-- Serialization of many concurrent non-blocking acquirers: the filesystem
serializes the atomic `mkdir` calls in some order; each acquirer runs one
`__enter__` attempt against the state left by the previous ones. Returns
the final state and, per acquirer, whether its acquisition succeeded. -/
def runAcquirers : List atomic_lock → FS → FS × List Bool
  | [], fs => (fs, [])
  | L :: rest, fs =>
    match atomic_lock.enter L [fs] with
    | .success fs' _ => let r := runAcquirers rest fs'; (r.1, true :: r.2)
    | .locked fs' _ => let r := runAcquirers rest fs'; (r.1, false :: r.2)
    | .oserror fs' _ => let r := runAcquirers rest fs'; (r.1, false :: r.2)
    | .pending => let r := runAcquirers rest fs; (r.1, false :: r.2)

/-- A non-blocking handle for the target `/data/repo` whose marker path is
`/tmp/h.lock`, used in concrete scenarios. -/
def demoLock : atomic_lock :=
  { wait := false, pathname := "/data/repo", lock_directory := "/tmp/h.lock" }

/-- A blocking handle for the same target and marker path. -/
def demoWaitLock : atomic_lock :=
  { wait := true, pathname := "/data/repo", lock_directory := "/tmp/h.lock" }

/-- An empty filesystem: no entries, no injected faults. -/
def demoFS : FS := ⟨[], []⟩

/-- A filesystem in which the marker directory `/tmp/h.lock` is held. -/
def heldFS : FS := ⟨[("/tmp/h.lock", Entry.dir)], []⟩

/-- A filesystem in which a stray non-directory file sits at `/tmp/h.lock`. -/
def strayFS : FS := ⟨[("/tmp/h.lock", Entry.file)], []⟩

/-- A filesystem where creating `/tmp/h.lock` fails with `EACCES`. -/
def faultyFS : FS := ⟨[], [("/tmp/h.lock", EACCES)]⟩

/-- A concrete environment: identity fingerprint and canonicalization,
temporary directory `/tmp`. -/
def demoEnv : Env := ⟨fun s => s, "/tmp", fun s => s⟩

theorem makedirs_absent {fs : FS} {d : String}
    (hinj : fs.mkdirErrors.lookup d = none) (habs : fs.pathExists d = false) :
    makedirs fs d = .ok ({ fs with entries := (d, Entry.dir) :: fs.entries }, true) := by
  simp [makedirs, os_makedirs, hinj, habs]

theorem makedirs_occupied {fs : FS} {d : String}
    (hinj : fs.mkdirErrors.lookup d = none) (hocc : fs.pathExists d = true) :
    makedirs fs d = .ok (fs, false) := by
  simp [makedirs, os_makedirs, hinj, hocc]

theorem makedirs_fault {fs : FS} {d : String} {e : Nat}
    (hinj : fs.mkdirErrors.lookup d = some e) (hne : e ≠ EEXIST) :
    makedirs fs d = .error e := by
  simp [makedirs, os_makedirs, hinj, hne]

theorem makedirs_created {fs : FS} {d : String} {fs' : FS}
    (h : makedirs fs d = .ok (fs', true)) :
    fs.pathExists d = false ∧ fs' = { fs with entries := (d, Entry.dir) :: fs.entries } := by
  cases hl : fs.mkdirErrors.lookup d with
  | some e =>
    by_cases he : e = EEXIST
    · subst he
      simp [makedirs, os_makedirs, hl] at h
    · simp [makedirs, os_makedirs, hl, he] at h
  | none =>
    cases hocc : fs.pathExists d with
    | true => simp [makedirs, os_makedirs, hl, hocc] at h
    | false =>
      simp [makedirs, os_makedirs, hl, hocc] at h
      exact ⟨rfl, h.symm⟩

theorem pathExists_create (fs : FS) (d : String) :
    FS.pathExists { fs with entries := (d, Entry.dir) :: fs.entries } d = true := by
  simp [FS.pathExists, FS.kind, List.find?]

theorem isdir_create (fs : FS) (d : String) :
    FS.isdir { fs with entries := (d, Entry.dir) :: fs.entries } d = true := by
  simp [FS.isdir, FS.kind, List.find?]

theorem isdir_false_of_absent {fs : FS} {d : String}
    (habs : fs.pathExists d = false) : fs.isdir d = false := by
  cases hk : fs.kind d with
  | none => simp [FS.isdir, hk]
  | some e => simp [FS.pathExists, hk] at habs

theorem isPrefixList_length : ∀ {l m : List Char}, isPrefixList l m = true → l.length ≤ m.length
  | [], _, _ => Nat.zero_le _
  | _ :: _, [], h => by simp [isPrefixList] at h
  | _ :: _, _ :: _, h => by
    simp [isPrefixList] at h
    exact Nat.succ_le_succ (isPrefixList_length h.2)

theorem append_slash_not_prefix_self (d : String) :
    isPrefixList (d ++ "/").data d.data = false := by
  cases h : isPrefixList (d ++ "/").data d.data with
  | false => rfl
  | true =>
    have hl := isPrefixList_length h
    have hd : (d ++ "/").data = d.data ++ ['/'] := rfl
    rw [hd] at hl
    simp at hl

theorem enter_first_success {L : atomic_lock} {fs : FS} (rest : List FS)
    (hinj : fs.mkdirErrors.lookup L.lock_directory = none)
    (habs : fs.pathExists L.lock_directory = false) :
    atomic_lock.enter L (fs :: rest)
      = .success { fs with entries := (L.lock_directory, Entry.dir) :: fs.entries } [] := by
  simp [atomic_lock.enter, makedirs_absent hinj habs]

theorem enter_contended_imm {L : atomic_lock} {fs : FS} (rest : List FS)
    (hw : L.wait = false)
    (hinj : fs.mkdirErrors.lookup L.lock_directory = none)
    (hocc : fs.pathExists L.lock_directory = true) :
    atomic_lock.enter L (fs :: rest)
      = .locked fs ("Failed to lock " ++ L.pathname ++ " for exclusive access!") := by
  simp [atomic_lock.enter, makedirs_occupied hinj hocc, hw]

/-- C3: with `wait` false and the marker already present, `__enter__` raises
`ResourceLockedException` immediately — the outcome does not depend on the
rest of the schedule (no sleep, no retry), the message embeds the canonical
target path, and the filesystem (hence the existing marker directory of the
original holder) is returned untouched. -/
theorem nonblocking_contention_error (L : atomic_lock) (fs : FS) (rest : List FS)
    (hw : L.wait = false)
    (hinj : fs.mkdirErrors.lookup L.lock_directory = none)
    (hocc : fs.pathExists L.lock_directory = true) :
    atomic_lock.enter L (fs :: rest)
      = .locked fs ("Failed to lock " ++ L.pathname ++ " for exclusive access!") := by
  simp [atomic_lock.enter, makedirs_occupied hinj hocc, hw]

theorem nonblocking_contention_error_witness :
    (demoLock.wait = false
      ∧ heldFS.mkdirErrors.lookup demoLock.lock_directory = none
      ∧ heldFS.pathExists demoLock.lock_directory = true)
    ∧ atomic_lock.enter demoLock [heldFS]
        = .locked heldFS ("Failed to lock " ++ demoLock.pathname ++ " for exclusive access!") :=
  ⟨⟨by decide, by decide, by decide⟩,
    nonblocking_contention_error demoLock heldFS [] (by decide) (by decide) (by decide)⟩

/-- C4: when no entry exists at the marker path, `__exit__` is a no-op: it
returns the filesystem unchanged and raises nothing. -/
theorem release_absent_marker_noop (L : atomic_lock) (fs : FS)
    (habs : fs.pathExists L.lock_directory = false) :
    atomic_lock.exit L fs = .ok fs := by
  simp [atomic_lock.exit, isdir_false_of_absent habs, habs]

theorem release_absent_marker_noop_witness :
    demoFS.pathExists demoLock.lock_directory = false
    ∧ atomic_lock.exit demoLock demoFS = .ok demoFS :=
  ⟨by decide, release_absent_marker_noop demoLock demoFS (by decide)⟩

/-- C6: an injected filesystem error other than `EEXIST` at the marker path
propagates out of `__enter__` unchanged: the result is determined by the
first attempt alone (no retry — the rest of the schedule is arbitrary) and
does not depend on the `wait` flag, which is left unconstrained. -/
theorem oserror_propagates_unretried (L : atomic_lock) (fs : FS) (rest : List FS) (e : Nat)
    (hinj : fs.mkdirErrors.lookup L.lock_directory = some e)
    (hne : e ≠ EEXIST) :
    atomic_lock.enter L (fs :: rest) = .oserror fs e := by
  simp [atomic_lock.enter, makedirs_fault hinj hne]

theorem oserror_propagates_unretried_witness :
    (faultyFS.mkdirErrors.lookup demoWaitLock.lock_directory = some EACCES
      ∧ EACCES ≠ EEXIST)
    ∧ atomic_lock.enter demoWaitLock [faultyFS] = .oserror faultyFS EACCES :=
  ⟨⟨by decide, by decide⟩,
    oserror_propagates_unretried demoWaitLock faultyFS [] EACCES (by decide) (by decide)⟩

theorem runAcquirers_occupied (d : String) :
    ∀ (ls : List atomic_lock) (fs : FS),
      (∀ L ∈ ls, L.lock_directory = d ∧ L.wait = false) →
      fs.mkdirErrors.lookup d = none → fs.pathExists d = true →
      (runAcquirers ls fs).2 = List.replicate ls.length false := by
  intro ls
  induction ls with
  | nil => intro fs _ _ _; simp [runAcquirers]
  | cons L rest ih =>
    intro fs hL hinj hocc
    have hLd : L.lock_directory = d := (hL L (by simp)).1
    have hLw : L.wait = false := (hL L (by simp)).2
    have henter := enter_contended_imm [] hLw (hLd ▸ hinj) (hLd ▸ hocc)
    simp only [runAcquirers, henter]
    simp only [List.length_cons, List.replicate_succ, List.cons.injEq, true_and]
    exact ih fs (fun M hM => hL M (by simp [hM])) hinj hocc

/-- C1: serializing any nonempty collection of non-blocking acquirers that
share one marker path against a filesystem where the marker is absent and
creation is not faulted, the acquirer whose atomic `mkdir` the filesystem
serializes first succeeds (its `makedirs` call creates the marker) and every
other acquirer reports contention: the outcome list is one success followed
by failures, so exactly one success overall. -/
theorem atomic_lock_mutual_exclusion (d : String) (ls : List atomic_lock) (fs : FS)
    (hne : ls ≠ [])
    (hL : ∀ L ∈ ls, L.lock_directory = d ∧ L.wait = false)
    (hinj : fs.mkdirErrors.lookup d = none)
    (habs : fs.pathExists d = false) :
    (runAcquirers ls fs).2 = true :: List.replicate (ls.length - 1) false
    ∧ (runAcquirers ls fs).2.count true = 1 := by
  match ls, hne with
  | L :: rest, _ =>
    have hLd : L.lock_directory = d := (hL L (by simp)).1
    have henter := enter_first_success [] (hLd ▸ hinj) (hLd ▸ habs)
    have hrest : (runAcquirers rest
        { fs with entries := (L.lock_directory, Entry.dir) :: fs.entries }).2
        = List.replicate rest.length false :=
      runAcquirers_occupied d rest _ (fun M hM => hL M (by simp [hM])) hinj
        (by rw [hLd]; exact pathExists_create fs d)
    constructor
    · simp only [runAcquirers, henter, hrest]
      simp
    · simp only [runAcquirers, henter, hrest]
      simp [List.count_cons, List.count_replicate]

theorem atomic_lock_mutual_exclusion_witness :
    (([demoLock, demoLock] : List atomic_lock) ≠ []
      ∧ (∀ L ∈ ([demoLock, demoLock] : List atomic_lock),
          L.lock_directory = "/tmp/h.lock" ∧ L.wait = false)
      ∧ demoFS.mkdirErrors.lookup "/tmp/h.lock" = none
      ∧ demoFS.pathExists "/tmp/h.lock" = false)
    ∧ ((runAcquirers [demoLock, demoLock] demoFS).2
        = true :: List.replicate ([demoLock, demoLock].length - 1) false
      ∧ (runAcquirers [demoLock, demoLock] demoFS).2.count true = 1) :=
  ⟨⟨by decide, by decide, by decide, by decide⟩,
    atomic_lock_mutual_exclusion "/tmp/h.lock" [demoLock, demoLock] demoFS
      (by decide) (by decide) (by decide) (by decide)⟩

/-- C5: from a state where the marker path is absent (and, as on a real
filesystem, has no entries below it and no injected fault), `__enter__`
succeeds on its first attempt creating the marker directory, `__exit__` on
the resulting state removes exactly that directory and returns the original
filesystem, in which the marker path is absent — the round trip leaves no
residue. -/
theorem acquire_release_roundtrip (L : atomic_lock) (fs : FS)
    (hinj : fs.mkdirErrors.lookup L.lock_directory = none)
    (habs : fs.pathExists L.lock_directory = false)
    (hch : fs.hasChildren L.lock_directory = false) :
    atomic_lock.enter L [fs]
      = .success { fs with entries := (L.lock_directory, Entry.dir) :: fs.entries } []
    ∧ atomic_lock.exit L { fs with entries := (L.lock_directory, Entry.dir) :: fs.entries }
      = .ok fs
    ∧ fs.pathExists L.lock_directory = false := by
  refine ⟨enter_first_success [] hinj habs, ?_, habs⟩
  have hne : FS.hasChildren
      { fs with entries := (L.lock_directory, Entry.dir) :: fs.entries } L.lock_directory
      = false := by
    simp [FS.hasChildren] at hch ⊢
    exact ⟨append_slash_not_prefix_self L.lock_directory, hch⟩
  simp [atomic_lock.exit, isdir_create, os_rmdir, hne, isdir_create fs L.lock_directory]

theorem acquire_release_roundtrip_witness :
    (demoFS.mkdirErrors.lookup demoLock.lock_directory = none
      ∧ demoFS.pathExists demoLock.lock_directory = false
      ∧ demoFS.hasChildren demoLock.lock_directory = false)
    ∧ (atomic_lock.enter demoLock [demoFS]
        = .success { demoFS with entries := (demoLock.lock_directory, Entry.dir) :: demoFS.entries } []
      ∧ atomic_lock.exit demoLock
          { demoFS with entries := (demoLock.lock_directory, Entry.dir) :: demoFS.entries }
        = .ok demoFS
      ∧ demoFS.pathExists demoLock.lock_directory = false) :=
  ⟨⟨by decide, by decide, by decide⟩,
    acquire_release_roundtrip demoLock demoFS (by decide) (by decide) (by decide)⟩

/-- C2: the marker path of a constructed handle is exactly the temporary
directory joined with the sha1 fingerprint of the canonicalized target
followed by `.lock`; consequently two handles constructed for paths with
the same canonical form (any wait flags, any process sharing the same
collaborators) compute identical marker paths. -/
theorem marker_path_deterministic (env : Env) (p1 p2 : String) (w1 w2 : Bool) :
    (atomic_lock.init env p1 w1).lock_directory
      = path_join env.tmpdir (env.sha1 (env.realpath p1) ++ ".lock")
    ∧ (env.realpath p1 = env.realpath p2 →
        (atomic_lock.init env p1 w1).lock_directory
          = (atomic_lock.init env p2 w2).lock_directory) := by
  refine ⟨rfl, fun h => ?_⟩
  simp [atomic_lock.init, h]

theorem marker_path_deterministic_witness :
    ((atomic_lock.init demoEnv "/data/repo" true).lock_directory
      = path_join demoEnv.tmpdir (demoEnv.sha1 (demoEnv.realpath "/data/repo") ++ ".lock")
    ∧ (demoEnv.realpath "/data/repo" = demoEnv.realpath "/data/repo" →
        (atomic_lock.init demoEnv "/data/repo" true).lock_directory
          = (atomic_lock.init demoEnv "/data/repo" false).lock_directory)) :=
  marker_path_deterministic demoEnv "/data/repo" "/data/repo" true false

/-- C7 counterexample: construction cannot fail. `os.path.realpath` in the
source canonicalizes best-effort and raises nothing for paths that do not
exist and cannot be resolved (here `/no/such/path` in an empty filesystem);
`__init__` still produces a handle, with the best-effort canonical form
stored and a marker path derived from it — no `PathResolutionError` exists
anywhere in the code. -/
theorem construction_never_fails_cx :
    FS.pathExists ⟨[], []⟩ "/no/such/path" = false
    ∧ atomic_lock.init ⟨fun s => s, "/tmp", fun s => s⟩ "/no/such/path" true
      = { wait := true, pathname := "/no/such/path", lock_directory := "/no/such/path.lock" } :=
  ⟨rfl, rfl⟩

/-- C7 (amended): constructing a handle never fails: for every input path
the handle is produced, with the wait flag stored, the pathname set to the
best-effort canonical form returned by the total `os.path.realpath`, and
the marker path derived from that form. -/
theorem construction_total_best_effort (env : Env) (p : String) (w : Bool) :
    (atomic_lock.init env p w).pathname = env.realpath p
    ∧ (atomic_lock.init env p w).wait = w
    ∧ (atomic_lock.init env p w).lock_directory
      = path_join env.tmpdir (env.sha1 (env.realpath p) ++ ".lock") :=
  ⟨rfl, rfl, rfl⟩

theorem enter_wait_spec (L : atomic_lock) (hw : L.wait = true) :
    ∀ s : List FS,
      (∀ fsx m, atomic_lock.enter L s ≠ .locked fsx m)
      ∧ (∀ fs1 sleeps, atomic_lock.enter L s = .success fs1 sleeps →
          sleeps = List.replicate sleeps.length ((1 : ℚ)/10)
          ∧ (s.get? sleeps.length).map (fun f => f.pathExists L.lock_directory)
            = some false) := by
  intro s
  induction s with
  | nil =>
    constructor
    · intro fsx m h
      simp [atomic_lock.enter] at h
    · intro fs1 sleeps h
      simp [atomic_lock.enter] at h
  | cons fs rest ih =>
    cases hmk : makedirs fs L.lock_directory with
    | error e =>
      constructor
      · intro fsx m h
        simp [atomic_lock.enter, hmk] at h
      · intro fs1 sleeps h
        simp [atomic_lock.enter, hmk] at h
    | ok pr =>
      obtain ⟨fs', created⟩ := pr
      cases created with
      | true =>
        constructor
        · intro fsx m h
          simp [atomic_lock.enter, hmk] at h
        · intro fs1 sleeps h
          simp [atomic_lock.enter, hmk] at h
          obtain ⟨hfs1, hsl⟩ := h
          subst hsl
          refine ⟨rfl, ?_⟩
          simpa using (makedirs_created hmk).1
      | false =>
        cases her : atomic_lock.enter L rest with
        | success fs2 sl =>
          have hIH := ih.2 fs2 sl her
          constructor
          · intro fsx m h
            simp [atomic_lock.enter, hmk, hw, her] at h
          · intro fs1 sleeps h
            simp [atomic_lock.enter, hmk, hw, her] at h
            obtain ⟨hfs1, hsl⟩ := h
            subst hsl
            constructor
            · rw [List.length_cons, List.replicate_succ]
              congr 1
              · norm_num
              · exact hIH.1
            · simpa using hIH.2
        | locked f m => exact absurd her (ih.1 f m)
        | oserror f e =>
          constructor
          · intro fsx m h
            simp [atomic_lock.enter, hmk, hw, her] at h
          · intro fs1 sleeps h
            simp [atomic_lock.enter, hmk, hw, her] at h
        | pending =>
          constructor
          · intro fsx m h
            simp [atomic_lock.enter, hmk, hw, her] at h
          · intro fs1 sleeps h
            simp [atomic_lock.enter, hmk, hw, her] at h

/-- C8: with `wait` true, `__enter__` never raises the contention error (so
blocking acquisition never reports failure, whatever schedule of states the
attempts observe); and whenever it returns success, the sleeps performed
are a fixed 0.1-second interval per failed attempt — so an acquisition
succeeding at attempt `i` slept exactly `i` times 0.1 seconds, with no
retry bound — and the state at the successful attempt did not contain the
marker (success is returned only when its own creation succeeded). -/
theorem blocking_acquire_behavior (L : atomic_lock) (s : List FS)
    (hw : L.wait = true) (fsx : FS) (m : String) (fs1 : FS) (sleeps : List ℚ) :
    atomic_lock.enter L s ≠ .locked fsx m
    ∧ (atomic_lock.enter L s = .success fs1 sleeps →
        sleeps = List.replicate sleeps.length ((1 : ℚ)/10)
        ∧ (s.get? sleeps.length).map (fun f => f.pathExists L.lock_directory)
          = some false) :=
  ⟨(enter_wait_spec L hw s).1 fsx m, (enter_wait_spec L hw s).2 fs1 sleeps⟩

theorem blocking_acquire_behavior_witness :
    demoWaitLock.wait = true
    ∧ (atomic_lock.enter demoWaitLock [heldFS, demoFS] ≠ .locked demoFS ""
      ∧ (atomic_lock.enter demoWaitLock [heldFS, demoFS]
          = .success
              { demoFS with entries := (demoWaitLock.lock_directory, Entry.dir) :: demoFS.entries }
              [(1 : ℚ)/10] →
          [(1 : ℚ)/10] = List.replicate ([(1 : ℚ)/10]).length ((1 : ℚ)/10)
          ∧ (([heldFS, demoFS]).get? ([(1 : ℚ)/10]).length).map
              (fun f => f.pathExists demoWaitLock.lock_directory) = some false)) :=
  ⟨rfl, blocking_acquire_behavior demoWaitLock [heldFS, demoFS] rfl demoFS "" _ [(1 : ℚ)/10]⟩

theorem startsWithSlash_append (a b : String)
    (ha : startsWithSlash a = false) (hb : startsWithSlash b = false) :
    startsWithSlash (a ++ b) = false := by
  have hd : (a ++ b).data = a.data ++ b.data := rfl
  unfold startsWithSlash at *
  rw [hd]
  cases hA : a.data with
  | nil => simpa using hb
  | cons c t =>
    rw [hA] at ha
    simpa using ha

theorem path_join_right_inj {a b1 b2 : String}
    (h1 : startsWithSlash b1 = false) (h2 : startsWithSlash b2 = false)
    (h : path_join a b1 = path_join a b2) : b1 = b2 := by
  unfold path_join at h
  rw [h1, h2] at h
  simp only [Bool.false_eq_true, if_false] at h
  split at h
  · exact String.ext (List.append_cancel_left (congrArg String.data h))
  · exact String.ext (List.append_cancel_left
      (show (a ++ "/").data ++ b1.data = (a ++ "/").data ++ b2.data from congrArg String.data h))

theorem string_append_right_inj {x y : String} (t : String) (h : x ++ t = y ++ t) : x = y :=
  String.ext (List.append_cancel_right
    (show x.data ++ t.data = y.data ++ t.data from congrArg String.data h))

/-- C9: for two handles whose canonical target paths are distinct and whose
sha1 fingerprints differ (no collision), the computed marker paths are
distinct, so locking one path never contends with a lock on the other. The
two `startsWithSlash` hypotheses record that sha1 hex digests consist of
hexadecimal characters and hence never begin with a path separator. -/
theorem distinct_paths_distinct_markers (env : Env) (p1 p2 : String) (w1 w2 : Bool)
    (_hcanon : env.realpath p1 ≠ env.realpath p2)
    (hfp : env.sha1 (env.realpath p1) ≠ env.sha1 (env.realpath p2))
    (hs1 : startsWithSlash (env.sha1 (env.realpath p1)) = false)
    (hs2 : startsWithSlash (env.sha1 (env.realpath p2)) = false) :
    (atomic_lock.init env p1 w1).lock_directory
      ≠ (atomic_lock.init env p2 w2).lock_directory := by
  intro h
  apply hfp
  have hlock : startsWithSlash ".lock" = false := by decide
  have h' : path_join env.tmpdir (env.sha1 (env.realpath p1) ++ ".lock")
      = path_join env.tmpdir (env.sha1 (env.realpath p2) ++ ".lock") := h
  have hb := path_join_right_inj
    (startsWithSlash_append _ _ hs1 hlock) (startsWithSlash_append _ _ hs2 hlock) h'
  exact string_append_right_inj ".lock" hb

theorem distinct_paths_distinct_markers_witness :
    (demoEnv.realpath "a" ≠ demoEnv.realpath "b"
      ∧ demoEnv.sha1 (demoEnv.realpath "a") ≠ demoEnv.sha1 (demoEnv.realpath "b")
      ∧ startsWithSlash (demoEnv.sha1 (demoEnv.realpath "a")) = false
      ∧ startsWithSlash (demoEnv.sha1 (demoEnv.realpath "b")) = false)
    ∧ (atomic_lock.init demoEnv "a" true).lock_directory
      ≠ (atomic_lock.init demoEnv "b" true).lock_directory :=
  ⟨⟨by decide, by decide, by decide, by decide⟩,
    distinct_paths_distinct_markers demoEnv "a" "b" true true
      (by decide) (by decide) (by decide) (by decide)⟩

theorem enter_wait_static_occupied (L : atomic_lock) (fs : FS)
    (hw : L.wait = true)
    (hinj : fs.mkdirErrors.lookup L.lock_directory = none)
    (hocc : fs.pathExists L.lock_directory = true) :
    ∀ n, atomic_lock.enter L (List.replicate n fs) = .pending := by
  intro n
  induction n with
  | zero => simp [atomic_lock.enter]
  | succ k ih =>
    rw [List.replicate_succ]
    simp [atomic_lock.enter, makedirs_occupied hinj hocc, hw, ih]

/-- C10: a stray non-directory file occupying the marker path is treated
exactly like contention: creation fails with EEXIST, so a non-blocking
handle raises the contention error immediately and a blocking handle keeps
retrying while the file persists (never succeeding, never raising); and
`__exit__` removes the marker path only when a directory is there, so it
leaves the stray file untouched and raises nothing. -/
theorem stray_file_treated_as_contention (L : atomic_lock) (fs : FS) (rest : List FS) (n : Nat)
    (hfile : fs.kind L.lock_directory = some Entry.file)
    (hinj : fs.mkdirErrors.lookup L.lock_directory = none) :
    (L.wait = false → atomic_lock.enter L (fs :: rest)
      = .locked fs ("Failed to lock " ++ L.pathname ++ " for exclusive access!"))
    ∧ (L.wait = true → atomic_lock.enter L (List.replicate n fs) = .pending)
    ∧ atomic_lock.exit L fs = .ok fs := by
  have hocc : fs.pathExists L.lock_directory = true := by
    simp [FS.pathExists, hfile]
  have hnd : fs.isdir L.lock_directory = false := by
    simp [FS.isdir, hfile]
  exact ⟨fun hw => enter_contended_imm rest hw hinj hocc,
    fun hw => enter_wait_static_occupied L fs hw hinj hocc n,
    by simp [atomic_lock.exit, hnd]⟩

theorem stray_file_treated_as_contention_witness :
    (strayFS.kind demoWaitLock.lock_directory = some Entry.file
      ∧ strayFS.mkdirErrors.lookup demoWaitLock.lock_directory = none)
    ∧ ((demoWaitLock.wait = false → atomic_lock.enter demoWaitLock [strayFS]
        = .locked strayFS
            ("Failed to lock " ++ demoWaitLock.pathname ++ " for exclusive access!"))
      ∧ (demoWaitLock.wait = true →
          atomic_lock.enter demoWaitLock (List.replicate 2 strayFS) = .pending)
      ∧ atomic_lock.exit demoWaitLock strayFS = .ok strayFS) :=
  ⟨⟨by decide, by decide⟩,
    stray_file_treated_as_contention demoWaitLock strayFS [] 2 (by decide) (by decide)⟩

end DebPkgTools
